import Mathlib

/-!
Verification of the conversation indexing and traversal engine of
xps-conversation-producer (src/conversation/src/lib.rs), against its design
specification.

The embedding models:
  * the ABI payload codec for the PayloadSent(bytes32,bytes,uint256) event
    (a two-field payload: string message, uint256 prevPointer),
  * the backward-pointer rewind loop of MessageSender::rewind,
  * the forward subscription loop of MessageSender::follow_messages,
  * the conversation-id derivation to_conversation_id.

Machine integers are Nat with explicit moduli: u32 arithmetic is mod
4294967296 (2^32), u64 bounds are 2^64, and uint256 words are values below
2^256. Rust strings and byte buffers are lists of byte values (Nat).
Fallible operations return Option or an explicit outcome type; a panic of
the Rust code (checked integer conversion or slice-length assertion) is a
distinct outcome constructor, and the unbounded `while` loop of rewind is
run on explicit fuel, with fuel exhaustion reported separately so that
non-termination is observable.
-/

set_option maxRecDepth 2000

/-- Big-endian value of a byte list: the fold the ABI word reader performs. -/
def beVal (bs : List Nat) : Nat :=
  bs.foldl (fun a b => a * 256 + b) 0

/-- Big-endian byte encoding of a natural number in `k` bytes (value taken
mod 256^k), as an ABI word writer produces. -/
def beBytes : Nat → Nat → List Nat
  | 0, _ => []
  | k + 1, n => beBytes k (n / 256) ++ [n % 256]

/-- A 32-byte ABI word holding the value `n` (mod 2^256). -/
def abiWord (n : Nat) : List Nat :=
  beBytes 32 n

/-- ABI encoding of the PayloadSent event payload `(string message, uint256
prevPointer)`: head = offset word (64) and the uint word, tail = string
length word, string bytes, zero padding to a 32-byte boundary. This is the
wire form the contract emits and `ethabi::decode` consumes (spec section 6:
payload = ABI-style encoding of `(text message, uint256 prevPointer)`). -/
def abi_encode_payload_sent (m : List Nat) (p : Nat) : List Nat :=
  abiWord 64 ++ (abiWord p ++ (abiWord m.length ++ (m ++
    List.replicate ((32 - m.length % 32) % 32) 0)))

/-- Model of `abi_decode_payload_sent` (lib.rs lines 250-254):
`ethabi::decode(&[String, Uint(256)], data)`. The decoder reads the string
offset from word 0 and the uint from word 1, then at the offset reads the
string length word and that many bytes; any out-of-bounds read is a decode
error (`none`). -/
def abi_decode_payload_sent (data : List Nat) : Option (List Nat × Nat) :=
  if data.length < 64 then none
  else
    let o := beVal (data.take 32)
    let p := beVal ((data.drop 32).take 32)
    if data.length < o + 32 then none
    else
      let len := beVal ((data.drop o).take 32)
      if data.length < o + 32 + len then none
      else some ((data.drop (o + 32)).take len, p)

/-- The message field a successful decode yields (empty on decode failure);
used to state what the follow loop hands to the callback. -/
def decodedMsg (d : List Nat) : List Nat :=
  ((abi_decode_payload_sent d).getD ([], 0)).1

/-- `U256::as_u64` of the ethers uint crate: checked conversion that panics
(`none`) when the value does not fit in 64 bits. -/
def as_u64 (x : Nat) : Option Nat :=
  if x < 2 ^ 64 then some x else none

/-- Error taxonomy of the traversal code: the initial `last_message` call
failing (spec: ChainQueryError) and a payload failing to decode
(spec: DecodeError). -/
inductive ConvError where
  | queryError : ConvError
  | decodeError : ConvError
deriving DecidableEq, Repr

/-- Observable outcome of running the rewind code on bounded fuel:
`timeout` means the loop had not finished within the fuel (so `∀ fuel,
timeout` is non-termination), `panic` is a Rust panic, `error` a returned
`Err`, `ok` a returned `Ok`. -/
inductive Outcome (α : Type) where
  | timeout : Outcome α
  | panic : Outcome α
  | error : ConvError → Outcome α
  | ok : α → Outcome α
deriving DecidableEq, Repr

/-- The `MessageRewind` struct (lib.rs lines 35-38): messages oldest-first
and the `last_change` cursor. -/
structure MessageRewind where
  message : List (List Nat)
  last_change : Nat
deriving DecidableEq, Repr

/-- The chain as the traversal observes it through its two queries:
`lastMessage` is the `last_message(conversationId)` contract call (`none`
models the call failing), and `logsAt b` is `get_logs` for block range
`[b, b]` filtered by contract address, event signature and conversation
topic (`none` models the query failing; the list holds the raw payload
data of each matching log, in the order the node returns them). -/
structure Chain where
  lastMessage : Option Nat
  logsAt : Nat → Option (List (List Nat))

/-- One pass of rewind's inner `for log in logs` loop (lib.rs lines
141-165): decode each payload, push the message, move `last_change` to the
decoded prevPointer, then decrement the u32 budget `n` (wrapping, as the
release build of `n -= 1` does) and on reaching zero force `last_change`
to zero and break, leaving the remaining logs of the batch unread. -/
def processLogs : List (List Nat) → List (List Nat) → Nat → Nat →
    Except ConvError (List (List Nat) × Nat × Nat)
  | [], acc, lc, n => .ok (acc, lc, n)
  | d :: rest, acc, _, n =>
    match abi_decode_payload_sent d with
    | none => .error .decodeError
    | some (m, p) =>
      let n' := (n + 4294967295) % 4294967296
      if n' = 0 then .ok (acc ++ [m], 0, 0)
      else processLogs rest (acc ++ [m]) p n'

/-- Rewind's outer `while last_change != 0` loop (lib.rs lines 129-167) on
explicit fuel. Each iteration converts the working pointer with `as_u64`
(panicking above 2^64 - 1), queries the logs at that single block, and
processes the batch; a failed `get_logs` leaves every variable unchanged
and retries, exactly as the code's `if let Ok(logs)` with no else branch
does. -/
def rewindLoop (c : Chain) (fuel last_change : Nat) (acc : List (List Nat))
    (n : Nat) : Outcome (List (List Nat)) :=
  if last_change = 0 then .ok acc
  else
    match fuel with
    | 0 => .timeout
    | fuel' + 1 =>
      match as_u64 last_change with
      | none => .panic
      | some b =>
        match c.logsAt b with
        | none => rewindLoop c fuel' last_change acc n
        | some logs =>
          match processLogs logs acc last_change n with
          | .error e => .error e
          | .ok (acc', lc', n') => rewindLoop c fuel' lc' acc' n'

/-- `MessageSender::rewind` (lib.rs lines 113-172): look up the head
pointer, set the returned `last_change` to it (the code never writes the
field again), run the loop, and reverse the accumulated messages so the
result is oldest-first. -/
def rewind (c : Chain) (n : Nat) (fuel : Nat) : Outcome MessageRewind :=
  match c.lastMessage with
  | none => .error .queryError
  | some lc0 =>
    match rewindLoop c fuel lc0 [] n with
    | .timeout => .timeout
    | .panic => .panic
    | .error e => .error e
    | .ok msgs => .ok ⟨msgs.reverse, lc0⟩

/-- The body of follow's `while let Some(log) = stream.next()` loop
(lib.rs lines 198-213) over the finite list of payloads the subscription
emits, in emission order. Returns the messages handed to the callback, in
call order, and `some decodeError` when a payload failed to decode (the
loop returns the error at once, skipping nothing and reading no further
event), or `none` when the stream ended and the function returned Ok. -/
def followRun : List (List Nat) → List (List Nat) × Option ConvError
  | [] => ([], none)
  | d :: rest =>
    match abi_decode_payload_sent d with
    | none => ([], some .decodeError)
    | some (m, _) =>
      let r := followRun rest
      (m :: r.1, r.2)

/-- `MessageSender::follow_messages` (lib.rs lines 181-215). `events` is
the conversation's append-ordered event stream `(block, payload)` the
subscription collaborator draws from; per the design's ChainQueryPort
contract (spec sections 4.4 and 6) the subscription delivers the matching
events whose block is at least `from_block`, inclusive, in ledger order.
The code builds `from_block` with `start_block.as_u64()`, so a start
pointer above 2^64 - 1 panics (`none`). -/
def follow_messages (events : List (Nat × List Nat)) (start : Nat) :
    Option (List (List Nat) × Option ConvError) :=
  match as_u64 start with
  | none => none
  | some s =>
    some (followRun ((events.filter fun e => decide (s ≤ e.1)).map Prod.snd))

/-- `H256::from_slice`: copies a 32-byte slice, panicking (`none`) when the
length differs. -/
def h256_from_slice (bs : List Nat) : Option (List Nat) :=
  if bs.length = 32 then some bs else none

/-- `to_conversation_id` (lib.rs lines 233-243), parametrized by the
external Sha3-256 collaborator `hash`: hash the conversation name, build an
H256 from the digest, and return its fixed bytes unless the defensive
length check `conversation_id.len() > 32` fires. -/
def to_conversation_id (hash : List Nat → List Nat) (conversation : List Nat) :
    Option (Except String (List Nat)) :=
  match h256_from_slice (hash conversation) with
  | none => none
  | some conversation_id =>
    some (if conversation_id.length > 32 then .error "Conversation ID too long"
          else .ok conversation_id)

/-- The pointer at which the newest event of a newest-first event list was
recorded; 0 (the sentinel) for the empty list. -/
def headPtr : List (List Nat × Nat) → Nat
  | [] => 0
  | e :: _ => e.2

/-- The head pointer of a conversation given its ground-truth history in
append (oldest-first) order. -/
def lastPtr (hist : List (List Nat × Nat)) : Nat :=
  headPtr hist.reverse

/-- Well-formed backward chain, checked on the newest-first event list
`(message, pointer)`: every pointer is a nonzero block height below 2^64,
every message length fits in a uint256 word, and the chain query at each
pointer returns exactly that event's canonically encoded payload, whose
prevPointer field is the pointer of the next older event (sentinel 0 past
the oldest). -/
def chainOkB (c : Chain) : List (List Nat × Nat) → Bool
  | [] => true
  | (m, p) :: rest =>
    decide (p ≠ 0) && decide (p < 2 ^ 64) && decide (m.length < 2 ^ 256) &&
    decide (c.logsAt p = some [abi_encode_payload_sent m (headPtr rest)]) &&
    chainOkB c rest

/-- A chain `c` faithfully stores the conversation history `hist`
(append-ordered): the head lookup returns the newest event's pointer and
the backward links are well formed. -/
def goodChain (c : Chain) (hist : List (List Nat × Nat)) : Prop :=
  c.lastMessage = some (lastPtr hist) ∧ chainOkB c hist.reverse = true

instance (c : Chain) (hist : List (List Nat × Nat)) :
    Decidable (goodChain c hist) := by
  unfold goodChain
  infer_instance

-- ### Byte-level codec lemmas

theorem beBytes_length (k n : Nat) : (beBytes k n).length = k := by
  induction k generalizing n with
  | zero => rfl
  | succ k ih => simp [beBytes, ih]

theorem beVal_append_one (bs : List Nat) (b : Nat) :
    beVal (bs ++ [b]) = beVal bs * 256 + b := by
  simp [beVal, List.foldl_append]

theorem beVal_beBytes (k n : Nat) : beVal (beBytes k n) = n % 256 ^ k := by
  induction k generalizing n with
  | zero => simp [beBytes, beVal]; omega
  | succ k ih =>
    rw [beBytes, beVal_append_one, ih]
    have h : (256 : Nat) ^ (k + 1) = 256 * 256 ^ k := by ring
    rw [h, Nat.mod_mul]
    omega

theorem two56_pow_32 : (256 : Nat) ^ 32 = 2 ^ 256 := by
  norm_num

theorem beVal_abiWord (n : Nat) : beVal (abiWord n) = n % 2 ^ 256 := by
  rw [abiWord, beVal_beBytes, two56_pow_32]

theorem abiWord_length (n : Nat) : (abiWord n).length = 32 :=
  beBytes_length 32 n

theorem abi_roundtrip_aux (m : List Nat) (p : Nat)
    (hp : p < 2 ^ 256) (hm : m.length < 2 ^ 256) :
    abi_decode_payload_sent (abi_encode_payload_sent m p) = some (m, p) := by
  have h64 : beVal (abiWord 64) = 64 := by
    rw [beVal_abiWord]; norm_num
  have hpv : beVal (abiWord p) = p := by
    rw [beVal_abiWord]; exact Nat.mod_eq_of_lt hp
  have hmv : beVal (abiWord m.length) = m.length := by
    rw [beVal_abiWord]; exact Nat.mod_eq_of_lt hm
  have hlen : (abi_encode_payload_sent m p).length =
      96 + m.length + (32 - m.length % 32) % 32 := by
    simp only [abi_encode_payload_sent, List.length_append, abiWord_length,
      List.length_replicate]
    omega
  have ht32 : (abi_encode_payload_sent m p).take 32 = abiWord 64 :=
    List.take_left' (abiWord_length 64)
  have hd32 : (abi_encode_payload_sent m p).drop 32 =
      abiWord p ++ (abiWord m.length ++ (m ++
        List.replicate ((32 - m.length % 32) % 32) 0)) :=
    List.drop_left' (abiWord_length 64)
  have ht32' : ((abi_encode_payload_sent m p).drop 32).take 32 = abiWord p := by
    rw [hd32]; exact List.take_left' (abiWord_length p)
  have hd64 : (abi_encode_payload_sent m p).drop 64 =
      abiWord m.length ++ (m ++ List.replicate ((32 - m.length % 32) % 32) 0) := by
    have h : (abi_encode_payload_sent m p).drop 64 =
        ((abi_encode_payload_sent m p).drop 32).drop 32 := by
      rw [List.drop_drop]
    rw [h, hd32]; exact List.drop_left' (abiWord_length p)
  have ht64 : ((abi_encode_payload_sent m p).drop 64).take 32 = abiWord m.length := by
    rw [hd64]; exact List.take_left' (abiWord_length m.length)
  have hd96 : (abi_encode_payload_sent m p).drop 96 =
      m ++ List.replicate ((32 - m.length % 32) % 32) 0 := by
    have h : (abi_encode_payload_sent m p).drop 96 =
        ((abi_encode_payload_sent m p).drop 64).drop 32 := by
      rw [List.drop_drop]
    rw [h, hd64]; exact List.drop_left' (abiWord_length m.length)
  have htm : ((abi_encode_payload_sent m p).drop 96).take m.length = m := by
    rw [hd96]; exact List.take_left' rfl
  have hc1 : ¬((abi_encode_payload_sent m p).length < 64) := by omega
  have hc2 : ¬((abi_encode_payload_sent m p).length < 64 + 32) := by omega
  have hc3 : ¬((abi_encode_payload_sent m p).length < 64 + 32 + m.length) := by
    omega
  simp only [abi_decode_payload_sent]
  rw [if_neg hc1]
  simp only [ht32, h64, ht32', hpv, ht64, hmv]
  rw [if_neg hc2, if_neg hc3]
  norm_num [htm]

-- ### Arithmetic of the wrapping u32 budget decrement

theorem u32_pred_of_pos (n : Nat) (h1 : 1 ≤ n) (h2 : n < 4294967296) :
    (n + 4294967295) % 4294967296 = n - 1 := by
  omega

theorem u32_pred_zero : (0 + 4294967295) % 4294967296 = 4294967295 := by
  norm_num

-- ### Structural lemmas about the rewind loop

theorem rewindLoop_sentinel (c : Chain) (fuel : Nat) (acc : List (List Nat))
    (n : Nat) : rewindLoop c fuel 0 acc n = .ok acc := by
  unfold rewindLoop
  simp

theorem headPtr_lt_word (c : Chain) (r : List (List Nat × Nat))
    (hc : chainOkB c r = true) : headPtr r < 2 ^ 256 := by
  cases r with
  | nil => simp [headPtr]
  | cons e rest =>
    obtain ⟨m, p⟩ := e
    simp only [chainOkB, Bool.and_eq_true, decide_eq_true_eq] at hc
    have h64 : p < 2 ^ 64 := hc.1.1.1.2
    have : (2 : Nat) ^ 64 < 2 ^ 256 := by norm_num
    simp only [headPtr]
    omega

set_option maxRecDepth 4096 in
theorem rewindLoop_chain_step (c : Chain) (f : Nat) (m : List Nat) (p q : Nat)
    (acc : List (List Nat)) (n : Nat)
    (hp0 : p ≠ 0) (hp64 : p < 2 ^ 64)
    (hlog : c.logsAt p = some [abi_encode_payload_sent m q])
    (hm : m.length < 2 ^ 256) (hq : q < 2 ^ 256) :
    rewindLoop c (f + 1) p acc n =
      if (n + 4294967295) % 4294967296 = 0 then .ok (acc ++ [m])
      else rewindLoop c f q (acc ++ [m]) ((n + 4294967295) % 4294967296) := by
  have hu : as_u64 p = some p := by
    unfold as_u64; rw [if_pos hp64]
  rw [rewindLoop]
  rw [if_neg hp0]
  simp only [hu, hlog, processLogs, abi_roundtrip_aux m q hq hm]
  by_cases hn : (n + 4294967295) % 4294967296 = 0
  · rw [if_pos hn, if_pos hn]
    exact rewindLoop_sentinel c f (acc ++ [m]) 0
  · rw [if_neg hn, if_neg hn]

theorem rewindLoop_chain_take (c : Chain) :
    ∀ (r : List (List Nat × Nat)) (acc : List (List Nat)) (n fuel : Nat),
    chainOkB c r = true → 1 ≤ n → n < 4294967296 → n ≤ r.length → n ≤ fuel →
    rewindLoop c fuel (headPtr r) acc n = .ok (acc ++ (r.take n).map Prod.fst)
  | [], acc, n, fuel => by
    intro _ h1 _ h3 _
    simp only [List.length_nil] at h3
    omega
  | (m, p) :: rest, acc, n, fuel => by
    intro hc h1 h2 h3 h4
    simp only [chainOkB, Bool.and_eq_true, decide_eq_true_eq] at hc
    obtain ⟨⟨⟨⟨hp0, hp64⟩, hm⟩, hlog⟩, hrest⟩ := hc
    have hq : headPtr rest < 2 ^ 256 := headPtr_lt_word c rest hrest
    cases fuel with
    | zero => omega
    | succ f =>
      have hstep := rewindLoop_chain_step c f m p (headPtr rest) acc n
        hp0 hp64 hlog hm hq
      rw [show headPtr ((m, p) :: rest) = p from rfl, hstep]
      have hdec : (n + 4294967295) % 4294967296 = n - 1 :=
        u32_pred_of_pos n h1 h2
      by_cases hone : n = 1
      · subst hone
        have h10 : (1 + 4294967295) % 4294967296 = 0 := by norm_num
        rw [if_pos h10]
        simp
      · have hne : ¬((n + 4294967295) % 4294967296 = 0) := by omega
        rw [if_neg hne, hdec]
        have h3' : n - 1 ≤ rest.length := by
          simp only [List.length_cons] at h3
          omega
        rw [rewindLoop_chain_take c rest (acc ++ [m]) (n - 1) f hrest
          (by omega) (by omega) h3' (by omega)]
        have hn' : n = (n - 1) + 1 := by omega
        conv_rhs => rw [hn', List.take_succ_cons]
        simp [List.append_assoc]

theorem rewindLoop_chain_all (c : Chain) :
    ∀ (r : List (List Nat × Nat)) (acc : List (List Nat)) (n fuel : Nat),
    chainOkB c r = true → r.length < n → n < 4294967296 → r.length ≤ fuel →
    rewindLoop c fuel (headPtr r) acc n = .ok (acc ++ r.map Prod.fst)
  | [], acc, n, fuel => by
    intro _ _ _ _
    simp [headPtr, rewindLoop_sentinel]
  | (m, p) :: rest, acc, n, fuel => by
    intro hc hlen h2 hfuel
    simp only [chainOkB, Bool.and_eq_true, decide_eq_true_eq] at hc
    obtain ⟨⟨⟨⟨hp0, hp64⟩, hm⟩, hlog⟩, hrest⟩ := hc
    have hq : headPtr rest < 2 ^ 256 := headPtr_lt_word c rest hrest
    simp only [List.length_cons] at hlen hfuel
    cases fuel with
    | zero => omega
    | succ f =>
      have hstep := rewindLoop_chain_step c f m p (headPtr rest) acc n
        hp0 hp64 hlog hm hq
      rw [show headPtr ((m, p) :: rest) = p from rfl, hstep]
      have hdec : (n + 4294967295) % 4294967296 = n - 1 :=
        u32_pred_of_pos n (by omega) h2
      have hne : ¬((n + 4294967295) % 4294967296 = 0) := by omega
      rw [if_neg hne, hdec]
      rw [rewindLoop_chain_all c rest (acc ++ [m]) (n - 1) f hrest
        (by omega) (by omega) (by omega)]
      simp

theorem reverse_take_reverse_eq (l : List (List Nat)) (n : Nat) :
    (l.reverse.take n).reverse = l.drop (l.length - n) := by
  have h := List.rtake_eq_reverse_take_reverse l n
  rw [← h, List.rtake]

theorem rewind_of_goodChain_ge (c : Chain) (hist : List (List Nat × Nat))
    (n fuel : Nat) (hg : goodChain c hist) (h1 : 1 ≤ n)
    (h2 : n < 4294967296) (h3 : n ≤ hist.length) (h4 : n ≤ fuel) :
    rewind c n fuel =
      .ok ⟨(hist.map Prod.fst).drop (hist.length - n), lastPtr hist⟩ := by
  obtain ⟨hlm, hok⟩ := hg
  simp only [rewind, hlm]
  have h3' : n ≤ hist.reverse.length := by
    rw [List.length_reverse]; exact h3
  rw [show lastPtr hist = headPtr hist.reverse from rfl]
  rw [rewindLoop_chain_take c hist.reverse [] n fuel hok h1 h2 h3' h4]
  have hmsg : (((hist.reverse.take n).map Prod.fst)).reverse =
      (hist.map Prod.fst).drop (hist.length - n) := by
    rw [List.map_take, List.map_reverse, reverse_take_reverse_eq,
      List.length_map]
  simp only [List.nil_append, hmsg]

theorem rewind_of_goodChain_lt (c : Chain) (hist : List (List Nat × Nat))
    (n fuel : Nat) (hg : goodChain c hist) (hlen : hist.length < n)
    (h2 : n < 4294967296) (hf : hist.length ≤ fuel) :
    rewind c n fuel = .ok ⟨hist.map Prod.fst, lastPtr hist⟩ := by
  obtain ⟨hlm, hok⟩ := hg
  simp only [rewind, hlm]
  have hlen' : hist.reverse.length < n := by
    rw [List.length_reverse]; exact hlen
  have hf' : hist.reverse.length ≤ fuel := by
    rw [List.length_reverse]; exact hf
  rw [show lastPtr hist = headPtr hist.reverse from rfl]
  rw [rewindLoop_chain_all c hist.reverse [] n fuel hok hlen' h2 hf']
  simp only [List.nil_append, List.map_reverse, List.reverse_reverse]

-- ### The follow loop on well-formed and on malformed streams

theorem followRun_all_ok : ∀ logs : List (List Nat),
    (∀ d ∈ logs, (abi_decode_payload_sent d).isSome = true) →
    followRun logs = (logs.map decodedMsg, none)
  | [] => by intro _; rfl
  | d :: rest => by
    intro h
    obtain ⟨⟨m, p⟩, hv⟩ := Option.isSome_iff_exists.mp (h d (by simp))
    have hrest := followRun_all_ok rest (fun x hx => h x (by simp [hx]))
    simp only [followRun, hv, hrest]
    simp [decodedMsg, hv]

theorem followRun_break : ∀ (pre : List (List Nat)) (bad : List Nat)
    (more : List (List Nat)),
    (∀ d ∈ pre, (abi_decode_payload_sent d).isSome = true) →
    abi_decode_payload_sent bad = none →
    followRun (pre ++ bad :: more) = (pre.map decodedMsg, some .decodeError)
  | [], bad, more => by
    intro _ hbad
    simp [followRun, hbad]
  | d :: pre, bad, more => by
    intro h hbad
    obtain ⟨⟨m, p⟩, hv⟩ := Option.isSome_iff_exists.mp (h d (by simp))
    have ih := followRun_break pre bad more (fun x hx => h x (by simp [hx])) hbad
    simp only [List.cons_append, followRun, hv, ih]
    simp [decodedMsg, hv, ih]

-- ### A malformed payload aborts the rewind batch at once

theorem processLogs_decode_error : ∀ (pre : List (List Nat)) (bad : List Nat)
    (more acc : List (List Nat)) (lc n : Nat),
    (∀ d ∈ pre, (abi_decode_payload_sent d).isSome = true) →
    abi_decode_payload_sent bad = none →
    pre.length < n → n < 4294967296 →
    processLogs (pre ++ bad :: more) acc lc n = .error .decodeError
  | [], bad, more, acc, lc, n => by
    intro _ hbad _ _
    simp [processLogs, hbad]
  | d :: pre, bad, more, acc, lc, n => by
    intro h hbad hlen hn
    obtain ⟨⟨m, p⟩, hv⟩ := Option.isSome_iff_exists.mp (h d (by simp))
    simp only [List.cons_append, processLogs, hv]
    simp only [List.length_cons] at hlen
    have hne : ¬((n + 4294967295) % 4294967296 = 0) := by omega
    rw [if_neg hne]
    have hdec : (n + 4294967295) % 4294967296 = n - 1 := by omega
    rw [hdec]
    exact processLogs_decode_error pre bad more (acc ++ [m]) p (n - 1)
      (fun x hx => h x (by simp [hx])) hbad (by omega) (by omega)

theorem rewindLoop_decode_error (c : Chain) (fuel lc n : Nat)
    (acc : List (List Nat)) (pre more : List (List Nat)) (bad : List Nat)
    (hlc0 : lc ≠ 0) (hlc64 : lc < 2 ^ 64)
    (hlog : c.logsAt lc = some (pre ++ bad :: more))
    (hpre : ∀ d ∈ pre, (abi_decode_payload_sent d).isSome = true)
    (hbad : abi_decode_payload_sent bad = none)
    (hlen : pre.length < n) (hn : n < 4294967296) :
    rewindLoop c (fuel + 1) lc acc n = .error .decodeError := by
  have hu : as_u64 lc = some lc := by
    unfold as_u64; rw [if_pos hlc64]
  rw [rewindLoop, if_neg hlc0]
  simp only [hu, hlog,
    processLogs_decode_error pre bad more acc lc n hpre hbad hlen hn]

-- ### Chains on which the rewind loop spins forever

/-- A chain whose head lookup answers block 5 while the log query at block
5 succeeds with zero matching events. -/
def chainEmptyLogs : Chain :=
  { lastMessage := some 5, logsAt := fun _ => some [] }

/-- A chain whose head lookup answers block 5 while every log query fails. -/
def chainFailLogs : Chain :=
  { lastMessage := some 5, logsAt := fun _ => none }

theorem rewindLoop_emptyLogs (acc : List (List Nat)) (n : Nat) :
    ∀ fuel, rewindLoop chainEmptyLogs fuel 5 acc n = .timeout
  | 0 => by
    have h5 : (5 : Nat) ≠ 0 := by norm_num
    rw [rewindLoop, if_neg h5]
  | fuel + 1 => by
    have h5 : (5 : Nat) ≠ 0 := by norm_num
    have hu : as_u64 5 = some 5 := by unfold as_u64; norm_num
    rw [rewindLoop, if_neg h5]
    simp only [hu, show chainEmptyLogs.logsAt 5 = some [] from rfl, processLogs]
    exact rewindLoop_emptyLogs acc n fuel

theorem rewindLoop_failLogs (acc : List (List Nat)) (n : Nat) :
    ∀ fuel, rewindLoop chainFailLogs fuel 5 acc n = .timeout
  | 0 => by
    have h5 : (5 : Nat) ≠ 0 := by norm_num
    rw [rewindLoop, if_neg h5]
  | fuel + 1 => by
    have h5 : (5 : Nat) ≠ 0 := by norm_num
    have hu : as_u64 5 = some 5 := by unfold as_u64; norm_num
    rw [rewindLoop, if_neg h5]
    simp only [hu, show chainFailLogs.logsAt 5 = none from rfl]
    exact rewindLoop_failLogs acc n fuel

-- ### Concrete conversations used as counterexamples and witnesses

/-- Payload of an event carrying the one-byte message 97 whose prevPointer
is the sentinel 0 (the oldest event of its conversation). -/
def encA : List Nat := abi_encode_payload_sent [97] 0

/-- Payload of an event carrying the one-byte message 98 whose prevPointer
is block 2. -/
def encB : List Nat := abi_encode_payload_sent [98] 2

/-- A one-event conversation: message 97 recorded at block 2. -/
def chainOne : Chain :=
  { lastMessage := some 2, logsAt := fun b => if b = 2 then some [encA] else some [] }

/-- Append-ordered history of chainOne. -/
def histOne : List (List Nat × Nat) := [([97], 2)]

/-- The subscription source stream of chainOne. -/
def eventsOne : List (Nat × List Nat) := [(2, encA)]

/-- A two-event conversation: message 97 at block 2, then message 98 at
block 5. -/
def chainTwo : Chain :=
  { lastMessage := some 5,
    logsAt := fun b =>
      if b = 5 then some [encB] else if b = 2 then some [encA] else some [] }

/-- Append-ordered history of chainTwo. -/
def histTwo : List (List Nat × Nat) := [([97], 2), ([98], 5)]

/-- A chain whose head points at block 5, where the stored event payload is
empty and hence malformed. -/
def chainBadLog : Chain :=
  { lastMessage := some 5, logsAt := fun _ => some [[]] }

/-- Subscription stream delivering one malformed (empty) payload at
block 5. -/
def eventsBad : List (Nat × List Nat) := [(5, [])]

/-- A chain whose head lookup answers a pointer that does not fit in 64
bits. -/
def chainHuge : Chain :=
  { lastMessage := some (2 ^ 64), logsAt := fun _ => some [] }

-- ### Claim C1

/-- C1: the rewind-to-follow handoff does not reproduce the append order
without duplicates. On the one-event conversation chainOne, rewind(1)
returns message 97 with cursor 2 (the head block itself, since the code
never moves the returned last_change past the initial head lookup), and a
follow starting from that cursor delivers the block-2 event again, so the
concatenation holds the single event twice instead of once. -/
theorem rewind_follow_handoff_duplicates :
    rewind chainOne 1 2 = .ok ⟨[[97]], 2⟩ ∧
    follow_messages eventsOne 2 = some ([[97]], none) ∧
    [[97]] ++ [[97]] ≠ ([[97]] : List (List Nat)) :=
  ⟨by decide, by decide, by decide⟩

-- ### Claim C2

/-- C2 counterexample: on the two-event conversation chainTwo, rewind(1)
returns the newest message 98 with last_change = 5, the head block, whereas
the claim demands the next unread position, block 2, where message 97
waits. -/
theorem rewind_cursor_head_counterexample :
    rewind chainTwo 1 2 = .ok ⟨[[98]], 5⟩ ∧
    rewind chainTwo 1 2 ≠ .ok ⟨[[98]], 2⟩ :=
  ⟨by decide, by decide⟩

/-- C2 (amended): on a well-formed conversation with at least n ≥ 1
events, rewind returns exactly the n newest messages, oldest-first,
matching the true append order, and the returned last_change equals the
conversation's head pointer (the last-change block of the initial lookup),
not the next unread position. -/
theorem rewind_returns_last_n_oldest_first (c : Chain)
    (hist : List (List Nat × Nat)) (n fuel : Nat) (hg : goodChain c hist)
    (h1 : 1 ≤ n) (h2 : n < 4294967296) (h3 : n ≤ hist.length)
    (h4 : n ≤ fuel) :
    rewind c n fuel =
      .ok ⟨(hist.map Prod.fst).drop (hist.length - n), lastPtr hist⟩ :=
  rewind_of_goodChain_ge c hist n fuel hg h1 h2 h3 h4

/-- C2 witness: the amended claim evaluated on chainTwo with n = 1. -/
theorem rewind_returns_last_n_oldest_first_witness :
    goodChain chainTwo histTwo ∧ rewind chainTwo 1 2 = .ok ⟨[[98]], 5⟩ := by
  constructor
  · decide
  · have h := rewind_returns_last_n_oldest_first chainTwo histTwo 1 2
      (by decide) (by decide) (by decide) (by decide) (by decide)
    rw [h]
    decide

-- ### Claim C3

/-- C3 counterexample: on the one-event conversation chainOne, rewind(2)
returns every message but its last_change is 2, the head block, not the
sentinel 0 the claim demands. -/
theorem rewind_short_cursor_counterexample :
    rewind chainOne 2 2 = .ok ⟨[[97]], 2⟩ ∧
    rewind chainOne 2 2 ≠ .ok ⟨[[97]], 0⟩ :=
  ⟨by decide, by decide⟩

/-- C3 (amended): on a well-formed conversation with fewer than n events,
rewind returns all messages, oldest-first, and the returned last_change
equals the conversation's head pointer, which is the sentinel 0 only when
the conversation is empty. -/
theorem rewind_returns_all_when_short (c : Chain)
    (hist : List (List Nat × Nat)) (n fuel : Nat) (hg : goodChain c hist)
    (hlen : hist.length < n) (h2 : n < 4294967296)
    (hf : hist.length ≤ fuel) :
    rewind c n fuel = .ok ⟨hist.map Prod.fst, lastPtr hist⟩ :=
  rewind_of_goodChain_lt c hist n fuel hg hlen h2 hf

/-- C3 witness: the amended claim evaluated on chainOne with n = 2. -/
theorem rewind_returns_all_when_short_witness :
    goodChain chainOne histOne ∧ rewind chainOne 2 2 = .ok ⟨[[97]], 2⟩ := by
  constructor
  · decide
  · have h := rewind_returns_all_when_short chainOne histOne 2 2
      (by decide) (by decide) (by decide) (by decide)
    rw [h]
    decide

-- ### Claim C4

/-- C4: rewind with n = 0 does not return an empty list on a non-empty
conversation. The loop is guarded by the working pointer, not by the
budget, and the u32 budget is decremented before it is tested, so n = 0
underflows (a panic in debug builds; in release builds it wraps to
4294967295 as modelled here) and rewind traverses the whole chain: on
chainOne it returns the message recorded at block 2 instead of nothing. -/
theorem rewind_zero_budget_underflows :
    rewind chainOne 0 2 = .ok ⟨[[97]], 2⟩ ∧
    (MessageRewind.mk [[97]] 2).message ≠ [] :=
  ⟨by decide, by decide⟩

-- ### Claim C5

/-- C5: when a queried position yields zero matching events despite a
non-sentinel pointer (chainEmptyLogs), or the log query itself fails
(chainFailLogs), rewind does not terminate with an error: the loop
re-issues the same query with unchanged state forever, so for every fuel
bound the call is still running. -/
theorem rewind_stalled_traversal_never_returns :
    ∀ fuel n, rewind chainEmptyLogs n fuel = .timeout ∧
      rewind chainFailLogs n fuel = .timeout := by
  intro fuel n
  constructor
  · simp only [rewind, show chainEmptyLogs.lastMessage = some 5 from rfl,
      rewindLoop_emptyLogs [] n fuel]
  · simp only [rewind, show chainFailLogs.lastMessage = some 5 from rfl,
      rewindLoop_failLogs [] n fuel]

-- ### Claim C6

/-- C6: a payload that does not decode against the (string, uint256)
schema aborts both calls at once with a decode error. In rewind, the whole
call returns the decode error no matter how many well-formed events
precede the malformed one in the batch, and the events after it are never
read; in follow, the sink receives exactly the messages emitted before the
malformed event and the loop returns the decode error without reading
further. -/
theorem decode_error_aborts_rewind_and_follow :
    ∀ (c : Chain) (lc n fuel s : Nat) (pre more : List (List Nat))
      (bad : List Nat) (events : List (Nat × List Nat)),
    abi_decode_payload_sent bad = none →
    (∀ d ∈ pre, (abi_decode_payload_sent d).isSome = true) →
    c.lastMessage = some lc → lc ≠ 0 → lc < 2 ^ 64 →
    c.logsAt lc = some (pre ++ bad :: more) →
    pre.length < n → n < 4294967296 →
    s < 2 ^ 64 →
    (events.filter fun e => decide (s ≤ e.1)).map Prod.snd =
      pre ++ bad :: more →
    rewind c n (fuel + 1) = .error .decodeError ∧
    follow_messages events s =
      some (pre.map decodedMsg, some .decodeError) := by
  intro c lc n fuel s pre more bad events hbad hpre hlm hlc0 hlc64 hlog
    hlen hn hs hfilter
  constructor
  · simp only [rewind, hlm, rewindLoop_decode_error c fuel lc n [] pre more
      bad hlc0 hlc64 hlog hpre hbad hlen hn]
  · have hu : as_u64 s = some s := by
      unfold as_u64; rw [if_pos hs]
    simp only [follow_messages, hu, hfilter,
      followRun_break pre bad more hpre hbad]

/-- C6 witness: the empty payload stored at block 5 of chainBadLog makes
rewind fail with the decode error, and the same payload in the
subscription stream makes follow fail with the decode error after zero
deliveries. -/
theorem decode_error_aborts_rewind_and_follow_witness :
    rewind chainBadLog 1 1 = .error .decodeError ∧
    follow_messages eventsBad 5 = some ([], some .decodeError) := by
  have h := decode_error_aborts_rewind_and_follow chainBadLog 5 1 0 5 [] []
    [] eventsBad (by decide) (by simp) rfl (by decide) (by decide) rfl
    (by decide) (by decide) (by decide) (by decide)
  simpa using h

-- ### Claim C7

/-- C7: follow_messages subscribes from the start pointer inclusive and,
while every matching payload decodes, invokes the callback exactly once
per event with the decoded message text, in exactly the order the
subscription emits the events: the delivered list is the pointwise decode
of the filtered stream, with no reordering, skipping or batching, and the
call ends returning Ok when the stream ends. -/
theorem follow_delivers_in_order :
    ∀ (events : List (Nat × List Nat)) (s : Nat),
    s < 2 ^ 64 →
    (∀ e ∈ events.filter fun e => decide (s ≤ e.1),
      (abi_decode_payload_sent e.2).isSome = true) →
    follow_messages events s =
      some ((events.filter fun e => decide (s ≤ e.1)).map
        (fun e => decodedMsg e.2), none) := by
  intro events s hs h
  have hu : as_u64 s = some s := by
    unfold as_u64; rw [if_pos hs]
  have hall : ∀ d ∈ (events.filter fun e => decide (s ≤ e.1)).map Prod.snd,
      (abi_decode_payload_sent d).isSome = true := by
    intro d hd
    simp only [List.mem_map] at hd
    obtain ⟨e, he, rfl⟩ := hd
    exact h e he
  simp only [follow_messages, hu, followRun_all_ok _ hall, List.map_map]
  rfl

/-- C7 witness: following chainOne's stream from block 2 delivers its one
message. -/
theorem follow_delivers_in_order_witness :
    follow_messages eventsOne 2 = some ([[97]], none) := by
  have h := follow_delivers_in_order eventsOne 2 (by decide) (by decide)
  rw [h]
  decide

-- ### Claim C8

/-- C8: to_conversation_id is deterministic and never returns an error:
for any hash collaborator with the fixed 32-byte output of Sha3-256, the
defensive length check can never fire (the fixed bytes of an H256 have
length exactly 32), so the call always returns the digest, and equal
conversation names give equal identifiers. -/
theorem to_conversation_id_total_and_deterministic :
    ∀ (hash : List Nat → List Nat) (conversation other : List Nat),
    (∀ s, (hash s).length = 32) →
    to_conversation_id hash conversation = some (.ok (hash conversation)) ∧
    (conversation = other →
      to_conversation_id hash conversation = to_conversation_id hash other) := by
  intro hash conv other h32
  constructor
  · have hs : h256_from_slice (hash conv) = some (hash conv) := by
      unfold h256_from_slice; rw [if_pos (h32 conv)]
    simp only [to_conversation_id, hs, h32, gt_iff_lt]
    norm_num
  · intro he
    rw [he]

/-- C8 witness: the claim evaluated at a constant 32-byte hash output. -/
theorem to_conversation_id_total_and_deterministic_witness :
    to_conversation_id (fun _ => List.replicate 32 0) [97] =
      some (.ok (List.replicate 32 0)) :=
  (to_conversation_id_total_and_deterministic (fun _ => List.replicate 32 0)
    [97] [97] (fun _ => by simp)).1

-- ### Claim C9

/-- C9: ABI-encoding a (message, prevPointer) payload and decoding it with
abi_decode_payload_sent returns exactly the original pair, for every
message and every pointer value that fit in a uint256 word. -/
theorem abi_payload_roundtrip :
    ∀ (m : List Nat) (p : Nat), p < 2 ^ 256 → m.length < 2 ^ 256 →
    abi_decode_payload_sent (abi_encode_payload_sent m p) = some (m, p) :=
  fun m p hp hm => abi_roundtrip_aux m p hp hm

/-- C9 witness: the round trip evaluated on the two-byte message
(104, 105) with prevPointer 7. -/
theorem abi_payload_roundtrip_witness :
    abi_decode_payload_sent (abi_encode_payload_sent [104, 105] 7) =
      some ([104, 105], 7) :=
  abi_payload_roundtrip [104, 105] 7 (by decide) (by decide)

-- ### Claim C10

/-- C10: both traversals convert the pointer with the checked 64-bit
conversion when building the block filter, so a head pointer (for rewind)
or start pointer (for follow) above 2^64 - 1 makes the operation panic
rather than return a typed error. -/
theorem pointer_overflow_panics :
    ∀ (c : Chain) (n fuel lc0 s : Nat) (events : List (Nat × List Nat)),
    c.lastMessage = some lc0 → 2 ^ 64 ≤ lc0 → 2 ^ 64 ≤ s →
    rewind c n (fuel + 1) = .panic ∧ follow_messages events s = none := by
  intro c n fuel lc0 s events hlm hlc hs
  have hpos : (0 : Nat) < 2 ^ 64 := by norm_num
  have hlc0 : lc0 ≠ 0 := by omega
  have hnlt : ¬(lc0 < 2 ^ 64) := by omega
  have hu : as_u64 lc0 = none := by
    unfold as_u64; rw [if_neg hnlt]
  have hnlts : ¬(s < 2 ^ 64) := by omega
  have hus : as_u64 s = none := by
    unfold as_u64; rw [if_neg hnlts]
  constructor
  · have hloop : rewindLoop c (fuel + 1) lc0 [] n = .panic := by
      rw [rewindLoop, if_neg hlc0]
      simp only [hu]
    simp only [rewind, hlm, hloop]
  · simp only [follow_messages, hus]

/-- C10 witness: a head pointer of exactly 2^64 makes rewind panic, and a
start pointer of 2^64 makes follow panic. -/
theorem pointer_overflow_panics_witness :
    rewind chainHuge 1 1 = .panic ∧ follow_messages [] (2 ^ 64) = none :=
  pointer_overflow_panics chainHuge 1 0 (2 ^ 64) (2 ^ 64) [] rfl
    (le_refl _) (le_refl _)
